import Mathlib

set_option maxRecDepth 8192

/-!
Shallow embedding of the ExodusII reader `ReadNCDF` (file `src/ReadNCDF.cpp`).

The reader ingests an ExodusII mesh file and materializes nodes, element
blocks, node sets, side sets and QA records into a mesh database, and has an
`update` mode that moves nodes to deformed positions and removes dead
elements.  External collaborators (the MOAB mesh database, the NetCDF access
library and the ExodusII element-topology catalog `ExoIIUtil`/`CN`) are out of
scope of the source and are modelled here as abstract interface data: the
catalog as a small inductive enumeration mirroring the `ExoIIElementType`
enum order actually relied on by the source, and the database as explicit
lists of handles, tags and environment functions.

Machine integers are modelled as `Int`/`Nat` with explicit `% 2^32` /
`% 2^64` where C casts matter.
-/

/-- Cast of a C `int` value to `unsigned int` (the cast
`(unsigned)tmp_ptr[i]` performed by `read_elements`). -/
def toU32 (i : Int) : Nat := (i % 4294967296).toNat

/-- Cast of a C `int` value to the 64-bit unsigned `EntityHandle` type
(`static_cast<EntityHandle>(tmp_ptr[i])`). -/
def toU64 (i : Int) : Nat := (i % 18446744073709551616).toNat

/-- The `ExoIIElementType` enumeration from the external ExodusII element
catalog (`ExoIIInterface.hpp`), restricted to the constructors the source
branches on.  The source only relies on each family (`TRI`, `QUAD`, `SHELL`,
`TETRA`, `HEX`) being a contiguous run of enum values and on
`EXOII_MAX_ELEM_TYPE` lying beyond every family, which this model preserves
via `ExoIIElementType.toNat`. -/
inductive ExoIIElementType where
  | SPHERE
  | TRI | TRI3 | TRI6 | TRI7
  | QUAD | QUAD4 | QUAD5 | QUAD8 | QUAD9
  | SHELL | SHELL4 | SHELL8 | SHELL9
  | TETRA | TETRA4 | TETRA8 | TETRA10 | TETRA14
  | WEDGE | KNIFE
  | HEX | HEX8 | HEX9 | HEX20 | HEX27
  | HEXSHELL
  | MAX_ELEM_TYPE
deriving Repr, DecidableEq

namespace ExoIIElementType

/-- Numeric value of the enum constant, used for the range comparisons
(`elem_type >= EXOII_HEX && elem_type <= EXOII_HEX27`, ...)
in `find_side_element_type` and `create_ss_elements`. -/
def toNat : ExoIIElementType → Nat
  | SPHERE => 0
  | TRI => 1 | TRI3 => 2 | TRI6 => 3 | TRI7 => 4
  | QUAD => 5 | QUAD4 => 6 | QUAD5 => 7 | QUAD8 => 8 | QUAD9 => 9
  | SHELL => 10 | SHELL4 => 11 | SHELL8 => 12 | SHELL9 => 13
  | TETRA => 14 | TETRA4 => 15 | TETRA8 => 16 | TETRA10 => 17 | TETRA14 => 18
  | WEDGE => 19 | KNIFE => 20
  | HEX => 21 | HEX8 => 22 | HEX9 => 23 | HEX20 => 24 | HEX27 => 25
  | HEXSHELL => 26
  | MAX_ELEM_TYPE => 27

/-- The comparison `lo <= t && t <= hi` on enum values. -/
def inRange (t lo hi : ExoIIElementType) : Bool :=
  lo.toNat ≤ t.toNat && t.toNat ≤ hi.toNat

end ExoIIElementType

/-- The MOAB `EntityType` values the source mentions. -/
inductive EntityType where
  | MBVERTEX | MBEDGE | MBTRI | MBQUAD | MBTET | MBHEX | MBENTITYSET
deriving Repr, DecidableEq

/-- The external catalog table `ExoIIUtil::ExoIIElementMBEntity`, mapping an
ExodusII element type to the MOAB entity type it produces (triangles to
`MBTRI`, quads and shells to `MBQUAD`, tets to `MBTET`, hexes to `MBHEX`). -/
def ExoIIElementMBEntity (t : ExoIIElementType) : EntityType :=
  if t.inRange .TRI .TRI7 then .MBTRI
  else if t.inRange .QUAD .QUAD9 then .MBQUAD
  else if t.inRange .SHELL .SHELL9 then .MBQUAD
  else if t.inRange .TETRA .TETRA14 then .MBTET
  else if t.inRange .HEX .HEX27 then .MBHEX
  else .MBVERTEX

/-- The external `CN::Dimension` lookup: topological dimension of a MOAB
entity type. -/
def CN_Dimension : EntityType → Nat
  | .MBVERTEX => 0
  | .MBEDGE => 1
  | .MBTRI => 2
  | .MBQUAD => 2
  | .MBTET => 3
  | .MBHEX => 3
  | .MBENTITYSET => 4

/-- The per-block record `ReadBlockData` kept in `blocksLoading`. -/
structure ReadBlockData where
  blockId : Int
  startExoId : Int
  numElements : Int
  startMBId : Int
  reading_in : Bool
  elemType : ExoIIElementType
deriving Repr, DecidableEq

/-! ### `read_block_headers` (claim C1)

`read_block_headers` copies the user's `blocks_to_load` region into a fresh
vector `new_blocks` and then tests membership with
`std::find(new_blocks.begin(), new_blocks.end(), *iter) != block_ids.end()`:
the iterator returned by `std::find` over `new_blocks` is compared against the
`end()` iterator of the *other* vector `block_ids`.  To capture this the
embedding models a `std::vector<int>` together with its heap base address, so
iterators are addresses. -/

/-- A C++ `std::vector<int>` together with the base address of its heap
storage; an iterator into the vector is the address `base + index`. -/
structure CppIntVec where
  base : Nat
  data : List Int
deriving Repr, DecidableEq

/-- The `end()` iterator of the vector, as an address. -/
def CppIntVec.endPtr (v : CppIntVec) : Nat := v.base + v.data.length

/-- `std::find(v.begin(), v.end(), x)` as an address: the address of the
first element equal to `x`, or `v.endPtr` when `x` does not occur. -/
def CppIntVec.findPtr (v : CppIntVec) (x : Int) : Nat :=
  v.base + v.data.findIdx (· == x)

/-- The per-block loop of `read_block_headers`: for each block id (paired
with its `num_el_in_blk` dimension) build a `ReadBlockData` whose
`reading_in` flag is the source's comparison
`std::find(new_blocks.begin(), new_blocks.end(), *iter) != block_ids.end()`,
and accumulate `exodus_id += num_elements`. -/
def read_block_headers_go (new_blocks block_ids_vec : CppIntVec) :
    List (Int × Int) → Int → List ReadBlockData
  | [], _ => []
  | (id, num_elements) :: rest, exodus_id =>
    { blockId := id
      startExoId := exodus_id
      numElements := num_elements
      startMBId := 0
      reading_in := decide (new_blocks.findPtr id ≠ block_ids_vec.endPtr)
      elemType := .MAX_ELEM_TYPE } ::
    read_block_headers_go new_blocks block_ids_vec rest (exodus_id + num_elements)

/-- `ReadNCDF::read_block_headers`.  `block_ids` is the `eb_prop1` array,
`num_els` the per-block `num_el_in_blk<k>` dimensions, `blocks_to_load` the
caller's subset list (`none` models a null pointer).  When the list is null
or `num_blocks == 0` the pointer is redirected to `block_ids` itself;
`new_blocks` is then constructed from `numberElementBlocks_loading` ints
starting at that pointer (`overread` supplies the bytes that follow the
caller's array in memory when it is shorter than that).  `nb_base` and
`bi_base` are the heap addresses of `new_blocks` and `block_ids`. -/
def read_block_headers (block_ids : List Int) (num_els : List Int)
    (blocks_to_load : Option (List Int)) (num_blocks : Nat)
    (nb_base bi_base : Nat) (overread : List Int) : List ReadBlockData :=
  let eff : List Int :=
    match blocks_to_load with
    | none => block_ids
    | some l => if num_blocks = 0 then block_ids else l
  let new_blocks : CppIntVec := ⟨nb_base, (eff ++ overread).take block_ids.length⟩
  let block_ids_vec : CppIntVec := ⟨bi_base, block_ids⟩
  read_block_headers_go new_blocks block_ids_vec (block_ids.zip num_els) 1

/-! ### `load_file` subset handling (claim C2) -/

/-- `MATERIAL_SET_TAG_NAME` from `MBTagConventions.hpp`. -/
def MATERIAL_SET_TAG_NAME : String := "MATERIAL_SET"

/-- One entry of `ReaderIface::SubsetList::tag_list`. -/
structure TagSpec where
  tag_name : String
  tag_values : List Int
deriving Repr, DecidableEq

/-- `ReaderIface::SubsetList`: a list of tag specifications plus the
partitioning request `num_parts`. -/
structure SubsetListC where
  tag_list : List TagSpec
  num_parts : Nat
deriving Repr, DecidableEq

/-- Outcome of the subset checks at the top of `load_file`. -/
inductive SubsetCheck where
  | unsupported
  | accepted (blocks_to_load : List Int)
deriving Repr, DecidableEq

/-- The subset-list handling at the top of `ReadNCDF::load_file`: reject with
`MB_UNSUPPORTED_OPERATION` when `tag_list_length > 1` or
`!strcmp(tag_list[0].tag_name, MATERIAL_SET_TAG_NAME)` holds (`!strcmp`
is *true on equal strings*), then reject when `num_parts` is non-zero,
otherwise take `tag_list[0].tag_values` as the blocks to load. -/
def load_file_subset_check (subset_list : Option SubsetListC) : SubsetCheck :=
  match subset_list with
  | none => .accepted []
  | some s =>
    let first := s.tag_list.getD 0 ⟨"", []⟩
    if s.tag_list.length > 1 ∨ first.tag_name = MATERIAL_SET_TAG_NAME then
      .unsupported
    else if s.num_parts ≠ 0 then
      .unsupported
    else
      .accepted first.tag_values

/-! ### `read_elements` connectivity conversion (claim C3)

The conversion pass iterates from the tail of the buffer
(`for (int i = number_nodes - 1; i >= 0; --i)`), rejects an entry when
`(unsigned)tmp_ptr[i] >= nodesInLoadedBlocks.size()` where the vector has
size `numberNodes_loading + 1`, marks `nodesInLoadedBlocks[tmp_ptr[i]] = 1`
and widens the entry to the handle
`static_cast<EntityHandle>(tmp_ptr[i]) + vertexOffset`. -/

/-- The connectivity conversion loop of `ReadNCDF::read_elements` over the
on-disk entries (tail processed first, as in the source); returns `none` on
the first rejected entry (`MB_FAILURE`), otherwise the handle row together
with the list of node indices marked in `nodesInLoadedBlocks`. -/
def read_elements_conv (numNodes vertexOffset : Nat) :
    List Int → Option (List Nat × List Nat)
  | [] => some ([], [])
  | e :: rest =>
    match read_elements_conv numNodes vertexOffset rest with
    | none => none
    | some (conns, touched) =>
      if numNodes + 1 ≤ toU32 e then none
      else some ((toU64 e + vertexOffset) :: conns, toU64 e :: touched)

/-! ### `find_side_element_type` (claim C7) -/

/-- `ReadNCDF::find_side_element_type`: walk `blocksLoading` for the block
whose `[startExoId, startExoId + numElements)` range contains `exodus_id`.
If that block is not being read in, advance `df_index` by the type-dependent
side cardinality and fail (`MB_FAILURE`); otherwise return the block.  The
result is the final `df_index` paired with the found block (`none` models
`MB_FAILURE`). -/
def find_side_element_type (blocks : List ReadBlockData)
    (exodus_id side_id : Int) (df_index : Int) : Int × Option ReadBlockData :=
  match blocks with
  | [] => (df_index, none)
  | b :: rest =>
    if b.startExoId ≤ exodus_id ∧ exodus_id < b.startExoId + b.numElements then
      if ¬ b.reading_in then
        let off : Int :=
          if b.elemType.inRange .HEX .HEX27 then 4
          else if b.elemType.inRange .TETRA .TETRA14 then 3
          else if b.elemType.inRange .QUAD .QUAD9 then 2
          else if b.elemType.inRange .SHELL .SHELL9 then
            (if side_id = 1 ∨ side_id = 2 then 4 else 2)
          else if b.elemType.inRange .TRI .TRI7 then 3
          else 0
        (df_index + off, none)
      else (df_index, some b)
    else find_side_element_type rest exodus_id side_id df_index

/-! ### `create_sideset_element` (claim C8)

Given a canonical side connectivity, the source asks the database for
adjacent entities of the target dimension sharing the first vertex, then for
each candidate checks equal cardinality, rotates the candidate so the first
occurrence of our first vertex leads, and compares the remaining positions
forward and, failing that, backward. -/

/-- The forward comparison loop (`for(j=1; j<connectivity.size(); j++)
if(connectivity[j] != match_conn[j]) ...`) as a Bool. -/
def fwd_loop_match (connectivity match_conn : List Int) : Bool :=
  (List.range connectivity.length).all fun j =>
    j == 0 || connectivity.getD j 0 == match_conn.getD j 0

/-- The opposite-sense comparison loop (`k` starts at `size - 1` and steps
down while `j` steps up from 1, comparing `connectivity[j]` with
`match_conn[k]`, so `k = size - j`). -/
def rev_loop_match (connectivity match_conn : List Int) : Bool :=
  (List.range connectivity.length).all fun j =>
    j == 0 || connectivity.getD j 0 == match_conn.getD (connectivity.length - j) 0

/-- The per-candidate test of `ReadNCDF::create_sideset_element`: fetch the
candidate's connectivity (a failed `get_connectivity` means `continue`),
require equal vertex counts, find our first vertex in it (`std::find`;
absence means `continue`), rotate it to the front (`std::rotate`), and
accept on a forward or reverse positional match. -/
def side_match_impl (getConn : Int → Option (List Int))
    (connectivity : List Int) (h : Int) : Bool :=
  match getConn h with
  | none => false
  | some match_conn =>
    if match_conn.length ≠ connectivity.length then false
    else
      let i := match_conn.findIdx (· == connectivity.getD 0 0)
      if i = match_conn.length then false
      else
        let rotated := match_conn.rotate i
        fwd_loop_match connectivity rotated || rev_loop_match connectivity rotated

/-- The candidate scan of `create_sideset_element`: the handle of the first
adjacent entity that matches, or `none` when no candidate does. -/
def create_sideset_element_core (getConn : Int → Option (List Int))
    (connectivity : List Int) : List Int → Option Int
  | [] => none
  | h :: rest =>
    if side_match_impl getConn connectivity h then some h
    else create_sideset_element_core getConn connectivity rest

/-- The abstract mesh database / topology catalog environment consumed by
the side-set materialization code. -/
structure MeshEnv where
  /-- `Interface::get_connectivity` for an element handle (`none` models a
  failed lookup). -/
  getConn : Int → Option (List Int)
  /-- `Interface::get_adjacencies(&connectivity[0], 1, to_dim, false, _)`:
  entities of the given dimension adjacent to the given (first) vertex. -/
  adjacent : Int → Nat → List Int
  /-- `CN::SubEntityNodeIndices(type, num_elem_nodes, side_dim, side_index)`;
  `none` models `num_side_nodes <= 0`. -/
  subEntityNodeIndices : EntityType → Nat → Nat → Int → Option (EntityType × List Nat)
  /-- The handle `Interface::create_element` assigns to a newly created
  entity with the given connectivity. -/
  freshHandle : List Int → Int

/-- `ReadNCDF::create_sideset_element`: reuse the first matching adjacent
entity, else create a new entity with the query connectivity.  The Bool
records whether a new entity was created. -/
def create_sideset_element (env : MeshEnv) (type : EntityType)
    (connectivity : List Int) : Int × Bool :=
  let adj_ent := env.adjacent (connectivity.getD 0 0) (CN_Dimension type)
  match create_sideset_element_core env.getConn connectivity adj_ent with
  | some h => (h, false)
  | none => (env.freshHandle connectivity, true)

/-! ### `create_ss_elements` (claims C4, C7) -/

/-- The mutable state threaded through `create_ss_elements`. -/
structure SSState where
  entities_to_add : List Int
  reverse_entities : List Int
  dist_factor_vector : List Int
  df_index : Int
deriving Repr, DecidableEq

/-- The loop `for(k=0; k<K; k++)
dist_factor_vector.push_back(temp_dist_factor_vector[df_index++])`. -/
def push_df_loop : Nat → List Int → List Int → Int → List Int × Int
  | 0, _, dfv, di => (dfv, di)
  | k + 1, temp, dfv, di => push_df_loop k temp (dfv ++ [temp.getD di.toNat 0]) (di + 1)

/-- The guarded distribution-factor push (`if( num_dist_factors ) { ... }`). -/
def ss_push_dfs (num_dist_factors k : Nat) (temp : List Int) (st : SSState) : SSState :=
  if num_dist_factors ≠ 0 then
    let p := push_df_loop k temp st.dist_factor_vector st.df_index
    { st with dist_factor_vector := p.1, df_index := p.2 }
  else st

/-- The main loop of `ReadNCDF::create_ss_elements` over the
`(elem_id, side)` pairs of one side set.  A `find_side_element_type` failure
is `continue` (skip the side); `none` models `MB_FAILURE` of the whole
function. -/
def create_ss_elements_go (env : MeshEnv) (blocks : List ReadBlockData)
    (numDim : Int) (num_dist_factors : Nat) (temp_dfs : List Int) :
    List (Int × Int) → SSState → Option SSState
  | [], st => some st
  | (elem_id, side) :: rest, st =>
    match find_side_element_type blocks elem_id side st.df_index with
    | (df', none) =>
      create_ss_elements_go env blocks numDim num_dist_factors temp_dfs rest
        { st with df_index := df' }
    | (df', some block_data) =>
      let st := { st with df_index := df' }
      let type := ExoIIElementMBEntity block_data.elemType
      let ent_handle : Int := elem_id - block_data.startExoId + block_data.startMBId
      let side_num : Int := side - 1
      if type = .MBHEX then
        match env.getConn ent_handle with
        | none => none
        | some nodes =>
          match env.subEntityNodeIndices type nodes.length 2 side_num with
          | none => none
          | some (subtype, side_node_idx) =>
            let connectivity := side_node_idx.map fun k => nodes.getD k 0
            let h := (create_sideset_element env subtype connectivity).1
            let st := { st with entities_to_add := st.entities_to_add ++ [h] }
            create_ss_elements_go env blocks numDim num_dist_factors temp_dfs rest
              (ss_push_dfs num_dist_factors 4 temp_dfs st)
      else if type = .MBTET then
        match env.getConn ent_handle with
        | none => none
        | some nodes =>
          match env.subEntityNodeIndices type nodes.length 2 side_num with
          | none => none
          | some (subtype, side_node_idx) =>
            let connectivity := side_node_idx.map fun k => nodes.getD k 0
            let h := (create_sideset_element env subtype connectivity).1
            let st := { st with entities_to_add := st.entities_to_add ++ [h] }
            create_ss_elements_go env blocks numDim num_dist_factors temp_dfs rest
              (ss_push_dfs num_dist_factors 3 temp_dfs st)
      else if type = .MBQUAD ∧ block_data.elemType.inRange .SHELL .SHELL9 then
        if side = 1 then
          let st := { st with entities_to_add := st.entities_to_add ++ [ent_handle] }
          create_ss_elements_go env blocks numDim num_dist_factors temp_dfs rest
            (ss_push_dfs num_dist_factors 4 temp_dfs st)
        else if side = 2 then
          let st := { st with reverse_entities := st.reverse_entities ++ [ent_handle] }
          create_ss_elements_go env blocks numDim num_dist_factors temp_dfs rest
            (ss_push_dfs num_dist_factors 4 temp_dfs st)
        else
          match env.getConn ent_handle with
          | none => none
          | some nodes =>
            match env.subEntityNodeIndices type nodes.length 1 (side_num - 2) with
            | none => none
            | some (subtype, side_node_idx) =>
              let connectivity := side_node_idx.map fun k => nodes.getD k 0
              let h := (create_sideset_element env subtype connectivity).1
              let st := { st with entities_to_add := st.entities_to_add ++ [h] }
              create_ss_elements_go env blocks numDim num_dist_factors temp_dfs rest
                (ss_push_dfs num_dist_factors 2 temp_dfs st)
      else if type = .MBQUAD then
        match env.getConn ent_handle with
        | none => none
        | some nodes =>
          match env.subEntityNodeIndices type nodes.length 1 side_num with
          | none => none
          | some (subtype, side_node_idx) =>
            let connectivity := side_node_idx.map fun k => nodes.getD k 0
            let h := (create_sideset_element env subtype connectivity).1
            let st := { st with entities_to_add := st.entities_to_add ++ [h] }
            create_ss_elements_go env blocks numDim num_dist_factors temp_dfs rest
              (ss_push_dfs num_dist_factors 2 temp_dfs st)
      else if type = .MBTRI then
        if numDim = 3 ∧ side ≤ 2 then
          let st := { st with entities_to_add := st.entities_to_add ++ [ent_handle] }
          create_ss_elements_go env blocks numDim num_dist_factors temp_dfs rest
            (ss_push_dfs num_dist_factors 3 temp_dfs st)
        else
          let side_offset : Int := if numDim = 3 ∧ side > 2 then 2 else 0
          match env.getConn ent_handle with
          | none => none
          | some nodes =>
            match env.subEntityNodeIndices type nodes.length 1 (side_num - side_offset) with
            | none => none
            | some (subtype, side_node_idx) =>
              let connectivity := side_node_idx.map fun k => nodes.getD k 0
              let h := (create_sideset_element env subtype connectivity).1
              let st := { st with entities_to_add := st.entities_to_add ++ [h] }
              create_ss_elements_go env blocks numDim num_dist_factors temp_dfs rest
                (ss_push_dfs num_dist_factors 2 temp_dfs st)
      else
        create_ss_elements_go env blocks numDim num_dist_factors temp_dfs rest st

/-- `ReadNCDF::create_ss_elements`: process all `(elem_id, side)` pairs of a
side set starting from the empty state (`df_index = 0`). -/
def create_ss_elements (env : MeshEnv) (blocks : List ReadBlockData)
    (numDim : Int) (element_ids side_list : List Int)
    (num_dist_factors : Nat) (temp_dfs : List Int) : Option SSState :=
  create_ss_elements_go env blocks numDim num_dist_factors temp_dfs
    (element_ids.zip side_list) ⟨[], [], [], 0⟩

/-! ### Side-set commit in `read_sidesets` (claims C4, C6) -/

/-- A reverse-sense child meshset: handle, members, and the value written to
the `SENSE` tag. -/
structure ReverseChild where
  handle : Int
  contents : List Int
  sense : Int
deriving Repr, DecidableEq

/-- The observable effect of committing one side set in `read_sidesets`. -/
structure SideSetCommit where
  ss_handle : Int
  created_new : Bool
  reverse_child : Option ReverseChild
  /-- Entities added to the side-set meshset, in addition order. -/
  ss_members : List Int
  /-- Value written to the `distFactor` tag, if any. -/
  dist_factors : Option (List Int)
deriving Repr, DecidableEq

/-- The distribution-factor merge of `read_sidesets`: the pre-existing tag
data is `std::copy`-appended onto the back of the vector of newly read
factors (`temp_dist_factor_vector`). -/
def ss_merge_dist_factors (temp_dist_factor_vector old_data : List Int) : List Int :=
  old_data.foldl (fun acc x => acc ++ [x]) temp_dist_factor_vector

/-- The distribution-factor merge of `read_nodesets` (lines 969-985): again
the pre-existing tag data is appended onto the back of the newly collected
`dist_factor_vector`. -/
def ns_merge_dist_factors (dist_factor_vector old_data : List Int) : List Int :=
  old_data.foldl (fun acc x => acc ++ [x]) dist_factor_vector

/-- The commit step of `ReadNCDF::read_sidesets` for one side set.
`child_meshsets` are the post-`initRange` meshsets in iteration order, each
with its `NEUMANN_SET` tag value when the tag read succeeds; `fresh_ss` and
`fresh_rev` are the handles `create_meshset` would assign.  If neither
entity list is non-empty nothing is committed (`none`).  Otherwise the first
meshset tagged with this id is reused; only when none exists is a new set
created, and only on that path is a reverse-sense child (tag `SENSE = -1`)
created, populated with `reverse_entities` and added to the side set. -/
def read_sidesets_commit (child_meshsets : List (Int × Option Int))
    (fresh_ss fresh_rev : Int) (sideset_id : Int)
    (entities_to_add reverse_entities : List Int)
    (number_dist_factors_in_set : Nat) (temp_dist_factor_vector : List Int)
    (dist_factor_tag : Int → Option (List Int)) : Option SideSetCommit :=
  if entities_to_add = [] ∧ reverse_entities = [] then none
  else
    match child_meshsets.find? (fun p => p.2 == some sideset_id) with
    | some p =>
      some { ss_handle := p.1
             created_new := false
             reverse_child := none
             ss_members := entities_to_add
             dist_factors :=
               if number_dist_factors_in_set ≠ 0 then
                 some (ss_merge_dist_factors temp_dist_factor_vector
                   ((dist_factor_tag p.1).getD []))
               else none }
    | none =>
      some { ss_handle := fresh_ss
             created_new := true
             reverse_child :=
               if reverse_entities ≠ [] then
                 some ⟨fresh_rev, reverse_entities, -1⟩
               else none
             ss_members :=
               (if reverse_entities ≠ [] then [fresh_rev] else []) ++ entities_to_add
             dist_factors :=
               if number_dist_factors_in_set ≠ 0 then
                 some (ss_merge_dist_factors temp_dist_factor_vector
                   ((dist_factor_tag fresh_ss).getD []))
               else none }

/-! ### `read_nodesets` node filtering (claim C9) -/

/-- The per-node loop of `ReadNCDF::read_nodesets`: a node index survives
only when `nodesInLoadedBlocks[node_handles[j]] == 1`; its handle is
`CREATE_HANDLE(MBVERTEX, node_handles[j] + vertexOffset)` truncated through
the `unsigned int node_id` local; it is kept when no prior node set with
this id exists (`existing = none`) or when the handle is not already a
member.  The distribution factor at the same index `j` is kept alongside.
Returns the `nodes` and `dist_factor_vector` vectors in push order. -/
def read_nodesets_filter_go (touched : Int → Bool) (vertexOffset : Int)
    (existing : Option (List Nat)) (number_dist_factors_in_set : Nat)
    (temp_dfs : List Int) : List Int → Nat → List Nat × List Int
  | [], _ => ([], [])
  | nh :: rest, j =>
    let r := read_nodesets_filter_go touched vertexOffset existing
      number_dist_factors_in_set temp_dfs rest (j + 1)
    if touched nh then
      let node_id := toU32 (nh + vertexOffset)
      if existing.isNone || !((existing.getD []).contains node_id) then
        (node_id :: r.1,
         if number_dist_factors_in_set ≠ 0 then temp_dfs.getD j 0 :: r.2 else r.2)
      else r
    else r

/-- The node-collection phase of `read_nodesets` for one node set. -/
def read_nodesets_filter (node_handles : List Int) (touched : Int → Bool)
    (vertexOffset : Int) (existing : Option (List Nat))
    (number_dist_factors_in_set : Nat) (temp_dfs : List Int) : List Nat × List Int :=
  read_nodesets_filter_go touched vertexOffset existing
    number_dist_factors_in_set temp_dfs node_handles 0

/-! ### `update` directive parsing (claim C5) -/

/-- The whitespace test `isspace` used by `strtol`. -/
def isSpaceC (c : Char) : Bool :=
  c == ' ' || c == '\t' || c == '\n' || c == '\r' || c == '\x0b' || c == '\x0c'

/-- Value of a digit character in the given base, as `strtol` accepts it. -/
def digitValC (base : Nat) (c : Char) : Option Nat :=
  let v : Option Nat :=
    if '0' ≤ c ∧ c ≤ '9' then some (c.toNat - '0'.toNat)
    else if 'a' ≤ c ∧ c ≤ 'z' then some (c.toNat - 'a'.toNat + 10)
    else if 'A' ≤ c ∧ c ≤ 'Z' then some (c.toNat - 'A'.toNat + 10)
    else none
  match v with
  | some d => if d < base then some d else none
  | none => none

/-- Consume digits of the given base, returning the accumulated value, the
number of digits consumed, and the rest of the string. -/
def parse_digits (base : Nat) : List Char → Nat → Nat → Nat × Nat × List Char
  | [], acc, count => (acc, count, [])
  | c :: rest, acc, count =>
    match digitValC base c with
    | some d => parse_digits base rest (acc * base + d) (count + 1)
    | none => (acc, count, c :: rest)

/-- `strtol(time_s, &endptr, 0)`: skip whitespace, take an optional sign,
choose the base from the prefix (`0x`/`0X` hex, leading `0` octal, else
decimal), consume digits, and return the value with the unconsumed rest of
the string (the `endptr`).  When no digits are converted the result is `0`
and the endptr is the original string. -/
def strtol_base0 (s : List Char) : Int × List Char :=
  let body := s.dropWhile isSpaceC
  let signed : Int × List Char :=
    match body with
    | '-' :: r => (-1, r)
    | '+' :: r => (1, r)
    | r => (1, r)
  let sign := signed.1
  match signed.2 with
  | '0' :: c :: rest =>
    if c == 'x' || c == 'X' then
      let p := parse_digits 16 rest 0 0
      if p.2.1 = 0 then (0, c :: rest)
      else (sign * (p.1 : Int), p.2.2)
    else
      let p := parse_digits 8 ('0' :: c :: rest) 0 0
      (sign * (p.1 : Int), p.2.2)
  | '0' :: [] => (0, [])
  | s1 =>
    let p := parse_digits 10 s1 0 0
    if p.2.1 = 0 then (0, s) else (sign * (p.1 : Int), p.2.2)

/-- The outcomes of the `update` directive validation that the claims
distinguish: `MB_TYPE_OUT_OF_RANGE`, a plain `MB_FAILURE`,
`MB_NOT_IMPLEMENTED`, or proceeding with the accepted time step. -/
inductive UpdateOutcome where
  | typeOutOfRange
  | failure
  | notImplemented
  | proceed (time_step : Int)
deriving Repr, DecidableEq

/-- The directive checks of `ReadNCDF::update` after the time-step token has
been accepted, in source order and with every intervening file read assumed
to succeed: the early operation check (`tokens[2]` must be `"set"` or
`"add"`, else `MB_TYPE_OUT_OF_RANGE`), the time-step bound against the
`time_step` dimension (`MB_FAILURE`), the variable-name check (`tokens[0]`
must be exactly `"coord"` or `"COORD"`, else `MB_NOT_IMPLEMENTED`), and the
late operation re-check (`strcmp(op, "set") && strcmp(op, " set")`, else
`MB_NOT_IMPLEMENTED`). -/
def update_after_time_check (tokens : List String) (max_time_steps time_step : Int) :
    UpdateOutcome :=
  if tokens.length < 3 ∨ (tokens.getD 2 "" ≠ "set" ∧ tokens.getD 2 "" ≠ "add") then
    .typeOutOfRange
  else if max_time_steps < time_step then .failure
  else if tokens.getD 0 "" ≠ "coord" ∧ tokens.getD 0 "" ≠ "COORD" then .notImplemented
  else if tokens.getD 2 "" ≠ "set" ∧ tokens.getD 2 "" ≠ " set" then .notImplemented
  else .proceed time_step

/-- The `update` directive validation over the comma-separated tokens of the
`tdata` option (file reads assumed to succeed, `max_time_steps` is the size
of the `time_step` dimension).  The time-step token is parsed with
`strtol(_, &endptr, 0)`; a non-empty endptr, a value that does not survive
the `long`-to-`int` round trip, or a non-positive value is
`MB_TYPE_OUT_OF_RANGE`. -/
def update_directive_check (tokens : List String) (max_time_steps : Int) :
    UpdateOutcome :=
  if tokens.length > 1 ∧ tokens.getD 1 "" ≠ "" then
    let p := strtol_base0 (tokens.getD 1 "").data
    if p.2 ≠ [] then .typeOutOfRange
    else if p.1 < -(2 ^ 31) ∨ 2 ^ 31 ≤ p.1 then .typeOutOfRange
    else if p.1 ≤ 0 then .typeOutOfRange
    else update_after_time_check tokens max_time_steps p.1
  else update_after_time_check tokens max_time_steps 1

/-! ### `update` node matching (claim C10) -/

/-- The statistics and id map accumulated by the node-matching pass of
`update`. -/
structure NodeMatchStats where
  found : Nat
  lost : Nat
  matched_cub_vert_id_map : List (Int × Int)
deriving Repr, DecidableEq

/-- `std::map::insert`: a pair is inserted only when the key is absent. -/
def map_insert (m : List (Int × Int)) (k v : Int) : List (Int × Int) :=
  if (m.lookup k).isSome then m else m ++ [(k, v)]

/-- One iteration of the by-id node-matching loop of `ReadNCDF::update`
(the compile-time default `match_node_ids = true`): a hit in
`cub_verts_id_map` records the pair in `matched_cub_vert_id_map` and counts
`found`; a miss counts `lost`. -/
def update_match_step (cub_verts_id_map : List (Int × Int))
    (st : NodeMatchStats) (exo_id : Int) : NodeMatchStats :=
  match cub_verts_id_map.lookup exo_id with
  | some cub_vert =>
    { st with
      found := st.found + 1
      matched_cub_vert_id_map := map_insert st.matched_cub_vert_id_map exo_id cub_vert }
  | none => { st with lost := st.lost + 1 }

/-- The by-id node-matching loop of `ReadNCDF::update` over all exodus node
ids (`ptr[i]` for `i < numberNodes_loading`). -/
def update_match_nodes_by_id (exo_ids : List Int)
    (cub_verts_id_map : List (Int × Int)) : NodeMatchStats :=
  exo_ids.foldl (update_match_step cub_verts_id_map) ⟨0, 0, []⟩

/-- Where control flows after the matching loop. -/
inductive MatchPhaseOutcome where
  | proceedToDeadElementRemoval
  | failed
deriving Repr, DecidableEq

/-- The lost-node check after the matching loop: `if(0 != lost)` prints a
diagnostic, but the `return MB_FAILURE` in its body is commented out in the
source, so control reaches the dead-element-removal phase either way. -/
def update_after_matching (lost : Nat) : MatchPhaseOutcome :=
  if lost ≠ 0 then .proceedToDeadElementRemoval else .proceedToDeadElementRemoval

/-! ## Theorems -/

/-- C1: evaluation of `read_block_headers` at a file with blocks `10` and
`20` and the non-empty subset list `[10, 10]` (heap layout: `new_blocks` at
address 1000, `block_ids` at address 2000, distinct allocations as `malloc`
guarantees).  Block `20` is absent from the list, yet both blocks come out
with `reading_in = true`: the `std::find` result over `new_blocks` is
compared against `block_ids.end()`, an iterator of a different vector, so
the membership test never fails. -/
theorem C1_read_block_headers_selects_every_block :
    (read_block_headers [10, 20] [5, 7] (some [10, 10]) 2 1000 2000 []).map
        (fun b => (b.blockId, b.reading_in)) = [(10, true), (20, true)] ∧
    (10 : Int) ∈ [(10 : Int), 10] ∧ ¬ (20 : Int) ∈ [(10 : Int), 10] ∧
    [(10 : Int), 10] ≠ [] := by decide

/-- C2: evaluation of the `load_file` subset checks.  A single-part subset
whose tag is the material-id tag is rejected with
`MB_UNSUPPORTED_OPERATION`, while a single-part subset with any other tag is
accepted and its values used as the blocks to load: the source's
`!strcmp(tag_list[0].tag_name, MATERIAL_SET_TAG_NAME)` is true exactly on
the material tag, inverting the check announced by its own error message. -/
theorem C2_load_file_subset_check_inverted :
    load_file_subset_check (some ⟨[⟨MATERIAL_SET_TAG_NAME, [1]⟩], 0⟩) = .unsupported ∧
    load_file_subset_check (some ⟨[⟨"NEUMANN_SET", [3]⟩], 0⟩) = .accepted [3] := by
  decide

/-- C3 (counterexample): the on-disk connectivity entry `0` is outside the
claimed range `1 ≤ i ≤ numNodes`, yet the conversion loop of
`read_elements` accepts it (with `numNodes = 4`, `vertexOffset = 10` it
produces handle `10` and marks node index `0`) instead of failing. -/
theorem C3_counterexample_zero_entry_accepted :
    read_elements_conv 4 10 [0] = some ([10], [0]) ∧ ¬ (1 : Int) ≤ 0 := by decide

/-- The reject test of the conversion loop, `(unsigned)e >= numNodes + 1`,
holds exactly when `e` lies outside `[0, numNodes]`, for `int`-ranged `e`
and a node count below `2^31`. -/
theorem read_elements_entry_test (numNodes : Nat) (e : Int)
    (hN : numNodes < 2 ^ 31) (h1 : -(2 ^ 31) ≤ e) (h2 : e < 2 ^ 31) :
    numNodes + 1 ≤ toU32 e ↔ ¬ (0 ≤ e ∧ e ≤ (numNodes : Int)) := by
  unfold toU32
  omega

/-- The widening cast to `EntityHandle` is the identity on accepted
(non-negative, `int`-ranged) entries. -/
theorem toU64_of_nonneg (e : Int) (h : 0 ≤ e) (h2 : e < 2 ^ 31) :
    toU64 e = e.toNat := by
  unfold toU64
  omega

/-- Unfolding equation for the conversion loop on a non-empty buffer. -/
theorem read_elements_conv_cons (numNodes vertexOffset : Nat) (e : Int)
    (rest : List Int) :
    read_elements_conv numNodes vertexOffset (e :: rest) =
      match read_elements_conv numNodes vertexOffset rest with
      | none => none
      | some (conns, touched) =>
        if numNodes + 1 ≤ toU32 e then none
        else some ((toU64 e + vertexOffset) :: conns, toU64 e :: touched) := rfl

/-- Characterization of the conversion loop of `read_elements`: it succeeds
iff every entry lies in `[0, numNodes]`, and on success yields the handles
`e + vertexOffset` and marks exactly the entry indices. -/
theorem read_elements_conv_characterization (numNodes vertexOffset : Nat)
    (hN : numNodes < 2 ^ 31) :
    ∀ entries : List Int, (∀ e ∈ entries, -(2 ^ 31) ≤ e ∧ e < 2 ^ 31) →
      if entries.all fun e => decide (0 ≤ e) && decide (e ≤ (numNodes : Int)) then
        read_elements_conv numNodes vertexOffset entries =
          some (entries.map fun e => e.toNat + vertexOffset, entries.map Int.toNat)
      else read_elements_conv numNodes vertexOffset entries = none := by
  intro entries
  induction entries with
  | nil => intro _; simp [read_elements_conv]
  | cons e rest ih =>
    intro h
    have he := h e (List.mem_cons_self e rest)
    have hrest := ih fun x hx => h x (List.mem_cons_of_mem e hx)
    have htest := read_elements_entry_test numNodes e hN he.1 he.2
    by_cases hacc : 0 ≤ e ∧ e ≤ (numNodes : Int)
    · by_cases hall : (rest.all fun e => decide (0 ≤ e) && decide (e ≤ (numNodes : Int))) = true
      · rw [if_pos hall] at hrest
        have : ((e :: rest).all fun e => decide (0 ≤ e) && decide (e ≤ (numNodes : Int))) = true := by
          simp [List.all_cons, hall, hacc.1, hacc.2]
        rw [if_pos this, read_elements_conv_cons, hrest]
        dsimp only
        rw [if_neg (by rw [htest]; exact not_not_intro hacc)]
        simp [toU64_of_nonneg e hacc.1 he.2]
      · rw [if_neg hall] at hrest
        have : ¬ ((e :: rest).all fun e => decide (0 ≤ e) && decide (e ≤ (numNodes : Int))) = true := by
          simp only [List.all_cons, Bool.and_eq_true]
          rintro ⟨-, hbad⟩
          exact absurd hbad hall
        rw [if_neg this, read_elements_conv_cons, hrest]
    · have : ¬ ((e :: rest).all fun e => decide (0 ≤ e) && decide (e ≤ (numNodes : Int))) = true := by
        simp only [List.all_cons, Bool.and_eq_true, decide_eq_true_eq]
        rintro ⟨⟨h1, h2⟩, -⟩
        exact hacc ⟨h1, h2⟩
      rw [if_neg this, read_elements_conv_cons]
      by_cases hall : (rest.all fun e => decide (0 ≤ e) && decide (e ≤ (numNodes : Int))) = true
      · rw [if_pos hall] at hrest
        rw [hrest]
        dsimp only
        rw [if_pos (htest.mpr hacc)]
      · rw [if_neg hall] at hrest
        rw [hrest]

/-- C3 (amended): in the conversion loop of `read_elements` an on-disk
connectivity entry `i` is accepted exactly when `0 ≤ i ≤ numNodes` (the
source compares `(unsigned)i` against `numNodes + 1`, so index `0` slips
through the claimed lower bound of `1`); any entry outside that range makes
`read_elements` fail with an error, and every accepted entry is remapped to
handle `i + vertexOffset` while node index `i` is marked in
`nodesInLoadedBlocks`. -/
theorem C3_read_elements_connectivity_validation (numNodes vertexOffset : Nat)
    (entries : List Int) (hN : numNodes < 2 ^ 31)
    (h32 : ∀ e ∈ entries, -(2 ^ 31) ≤ e ∧ e < 2 ^ 31) :
    (read_elements_conv numNodes vertexOffset entries = none ↔
      ∃ e ∈ entries, ¬ (0 ≤ e ∧ e ≤ (numNodes : Int))) ∧
    (read_elements_conv numNodes vertexOffset entries ≠ none →
      read_elements_conv numNodes vertexOffset entries =
        some (entries.map fun e => e.toNat + vertexOffset, entries.map Int.toNat)) := by
  have H := read_elements_conv_characterization numNodes vertexOffset hN entries h32
  by_cases hall : (entries.all fun e => decide (0 ≤ e) && decide (e ≤ (numNodes : Int))) = true
  · rw [if_pos hall] at H
    refine ⟨⟨fun hc => absurd H (by rw [hc]; simp), fun hex => ?_⟩, fun _ => H⟩
    rcases hex with ⟨e, hmem, hbad⟩
    rw [List.all_eq_true] at hall
    have := hall e hmem
    simp only [Bool.and_eq_true, decide_eq_true_eq] at this
    exact absurd this hbad
  · rw [if_neg hall] at H
    refine ⟨⟨fun _ => ?_, fun _ => H⟩, fun hne => absurd H hne⟩
    rw [List.all_eq_true] at hall
    push_neg at hall
    rcases hall with ⟨e, hmem, hbad⟩
    refine ⟨e, hmem, fun hc => hbad ?_⟩
    simp [hc.1, hc.2]

/-- C3 (witness): the amended theorem applied at `numNodes = 4`,
`vertexOffset = 10`, entries `[5]`: entry `5` exceeds `numNodes`, so the
conversion fails. -/
theorem C3_read_elements_connectivity_validation_witness :
    read_elements_conv 4 10 [5] = none :=
  (C3_read_elements_connectivity_validation 4 10 [5] (by norm_num)
    (by decide)).1.mpr ⟨5, by decide, by decide⟩

/-- C6 (counterexample): a pre-existing distribution-factor vector `[1]`
merged with newly read factors `[2]` yields `[2, 1]` in both
`read_nodesets` and `read_sidesets`, not the claimed pre-existing-first
concatenation `[1] ++ [2] = [1, 2]`. -/
theorem C6_counterexample_merge_order :
    ns_merge_dist_factors [2] [1] = [2, 1] ∧
    ss_merge_dist_factors [2] [1] = [2, 1] ∧
    ([2, 1] : List Int) ≠ [1] ++ [2] := by decide

/-- The `std::copy` onto a `back_inserter` appends the copied range. -/
theorem foldl_push_eq_append (init l : List Int) :
    l.foldl (fun acc x => acc ++ [x]) init = init ++ l := by
  induction l generalizing init with
  | nil => simp
  | cons x xs ih => simp [List.foldl_cons, ih]

/-- C6 (amended): when `read_nodesets` or `read_sidesets` merges new
distribution factors into an already-existing set of the same id, the
resulting vector is the newly read factors followed by the pre-existing
vector (the pre-existing tag data is copy-appended onto the back of the new
vector), in both readers. -/
theorem C6_merge_concatenates_new_then_old (newly_read pre_existing : List Int) :
    ns_merge_dist_factors newly_read pre_existing = newly_read ++ pre_existing ∧
    ss_merge_dist_factors newly_read pre_existing = newly_read ++ pre_existing :=
  ⟨foldl_push_eq_append newly_read pre_existing,
   foldl_push_eq_append newly_read pre_existing⟩

/-- C5 (counterexample): the directive `Coord,1,set` uses a casing of
`coord` other than the two literals the source compares against, and
`update` rejects it with `MB_NOT_IMPLEMENTED` instead of accepting it; and
the directive `coord,1,mul` whose operation differs from `set` is rejected
with `MB_TYPE_OUT_OF_RANGE`, not with the claimed not-implemented error. -/
theorem C5_counterexample_update_directive :
    update_directive_check ["Coord", "1", "set"] 5 = .notImplemented ∧
    "Coord".data.map Char.toLower = "coord".data ∧
    update_directive_check ["coord", "1", "mul"] 5 = .typeOutOfRange ∧
    UpdateOutcome.typeOutOfRange ≠ UpdateOutcome.notImplemented := by decide

/-- C5 (amended): for a directive `v,t,o` whose time token parses cleanly to
a valid step, `update` returns `MB_TYPE_OUT_OF_RANGE` when the operation
token is neither `set` nor `add`; otherwise it returns `MB_NOT_IMPLEMENTED`
when the variable token is not exactly `coord` or `COORD` (comparison is
case-sensitive, only these two spellings pass), then `MB_NOT_IMPLEMENTED`
when the operation is `add`, and proceeds only for `set`. -/
theorem C5_update_directive_checks (v t o : String) (max_time_steps ts : Int)
    (h1 : t ≠ "") (h2 : strtol_base0 t.data = (ts, []))
    (h3 : 0 < ts) (h4 : ts < 2 ^ 31) (h5 : ts ≤ max_time_steps) :
    update_directive_check [v, t, o] max_time_steps =
      (if o ≠ "set" ∧ o ≠ "add" then .typeOutOfRange
       else if v ≠ "coord" ∧ v ≠ "COORD" then .notImplemented
       else if o = "add" then .notImplemented
       else .proceed ts) := by
  have hg1 : [v, t, o].getD 1 "" = t := rfl
  have key : update_after_time_check [v, t, o] max_time_steps ts =
      (if o ≠ "set" ∧ o ≠ "add" then .typeOutOfRange
       else if v ≠ "coord" ∧ v ≠ "COORD" then .notImplemented
       else if o = "add" then .notImplemented
       else .proceed ts) := by
    have hg0 : [v, t, o].getD 0 "" = v := rfl
    have hg2 : [v, t, o].getD 2 "" = o := rfl
    have hL : ¬ ([v, t, o].length < 3) := by simp
    unfold update_after_time_check
    rw [hg0, hg2]
    by_cases ho : o ≠ "set" ∧ o ≠ "add"
    · rw [if_pos (Or.inr ho), if_pos ho]
    · rw [if_neg (fun hc => ho (hc.resolve_left hL)), if_neg ho,
        if_neg (show ¬ max_time_steps < ts by omega)]
      by_cases hv : v ≠ "coord" ∧ v ≠ "COORD"
      · rw [if_pos hv, if_pos hv]
      · rw [if_neg hv, if_neg hv]
        rcases not_and_or.mp ho with hset | hadd
        · rw [not_not] at hset
          subst hset
          rw [if_neg (by simp), if_neg (by decide)]
        · rw [not_not] at hadd
          subst hadd
          rw [if_pos (by decide), if_pos rfl]
  have outer : update_directive_check [v, t, o] max_time_steps =
      update_after_time_check [v, t, o] max_time_steps ts := by
    unfold update_directive_check
    rw [if_pos ⟨by norm_num, by rw [hg1]; exact h1⟩, hg1, h2]
    rw [if_neg (by simp), if_neg (by omega), if_neg (by omega)]
  exact outer.trans key

/-- C5 (witness): the amended theorem applied at the directive
`coord,2,set` with 7 available time steps: the update proceeds with time
step 2. -/
theorem C5_update_directive_checks_witness :
    update_directive_check ["coord", "2", "set"] 7 = .proceed 2 := by
  rw [C5_update_directive_checks "coord" "2" "set" 7 2 (by decide) (by decide)
    (by decide) (by decide) (by decide)]
  decide

/-- Membership characterization for the node-collection loop of
`read_nodesets`: every collected handle comes from a node index whose
`nodesInLoadedBlocks` entry is set. -/
theorem read_nodesets_filter_go_mem (touched : Int → Bool) (vertexOffset : Int)
    (existing : Option (List Nat)) (ndf : Nat) (temp : List Int) :
    ∀ (l : List Int) (j : Nat) (m : Nat),
      m ∈ (read_nodesets_filter_go touched vertexOffset existing ndf temp l j).1 →
      ∃ nh ∈ l, m = toU32 (nh + vertexOffset) ∧ touched nh = true := by
  intro l
  induction l with
  | nil =>
    intro j m hm
    simp [read_nodesets_filter_go] at hm
  | cons nh rest ih =>
    intro j m hm
    simp only [read_nodesets_filter_go] at hm
    by_cases ht : touched nh = true
    · rw [if_pos ht] at hm
      by_cases hc : (existing.isNone || !((existing.getD []).contains
          (toU32 (nh + vertexOffset)))) = true
      · rw [if_pos hc] at hm
        rcases List.mem_cons.mp hm with rfl | hm'
        · exact ⟨nh, List.mem_cons_self nh rest, rfl, ht⟩
        · rcases ih (j + 1) m hm' with ⟨nh', hmem, hrest⟩
          exact ⟨nh', List.mem_cons_of_mem nh hmem, hrest⟩
      · rw [if_neg hc] at hm
        rcases ih (j + 1) m hm with ⟨nh', hmem, hrest⟩
        exact ⟨nh', List.mem_cons_of_mem nh hmem, hrest⟩
    · rw [if_neg ht] at hm
      rcases ih (j + 1) m hm with ⟨nh', hmem, hrest⟩
      exact ⟨nh', List.mem_cons_of_mem nh hmem, hrest⟩

/-- C9: every vertex placed into a node-set meshset by `read_nodesets` is a
node touched by a selected block — for every node index read from
`node_ns<i>`, a member is contributed only if `nodesInLoadedBlocks` holds
`1` at that index, so the reconstructed members are a subset of the
touched-node set. -/
theorem C9_nodeset_members_are_touched (node_handles : List Int)
    (touched : Int → Bool) (vertexOffset : Int) (existing : Option (List Nat))
    (ndf : Nat) (temp : List Int) :
    ∀ m ∈ (read_nodesets_filter node_handles touched vertexOffset existing ndf temp).1,
      ∃ nh ∈ node_handles, m = toU32 (nh + vertexOffset) ∧ touched nh = true :=
  fun m hm =>
    read_nodesets_filter_go_mem touched vertexOffset existing ndf temp
      node_handles 0 m hm

/-- C9 (witness): with node list `[1, 2, 3]`, only index `2` touched and
`vertexOffset = 10`, the single reconstructed member `12` indeed arises
from a touched index. -/
theorem C9_nodeset_members_are_touched_witness :
    ∃ nh ∈ [(1 : Int), 2, 3], (12 : Nat) = toU32 (nh + 10) ∧
      (fun i : Int => i == 2) nh = true :=
  C9_nodeset_members_are_touched [1, 2, 3] (fun i : Int => i == 2) 10 none 0 []
    12 (by decide)

/-- A key absent from an association list stays absent after appending a
pair with a different key. -/
theorem lookup_append_singleton_none (m : List (Int × Int)) (k v id : Int)
    (hid : m.lookup id = none) (hne : id ≠ k) :
    (m ++ [(k, v)]).lookup id = none := by
  induction m with
  | nil =>
    have hbeq : (id == k) = false := beq_eq_false_iff_ne.mpr hne
    simp [List.lookup, hbeq]
  | cons p rest ih =>
    obtain ⟨pk, pv⟩ := p
    simp only [List.lookup, List.cons_append] at hid ⊢
    cases hpk : (id == pk) with
    | true => simp [hpk] at hid
    | false =>
      simp only [hpk] at hid ⊢
      exact ih hid

/-- `std::map::insert` never introduces a key that was absent both from the
map and from the key-value pair being inserted. -/
theorem lookup_map_insert_none (m : List (Int × Int)) (k v id : Int)
    (hid : m.lookup id = none) (hne : id ≠ k) :
    (map_insert m k v).lookup id = none := by
  unfold map_insert
  split
  · exact hid
  · exact lookup_append_singleton_none m k v id hid hne

/-- Invariant of the node-matching fold of `update`: each exodus node bumps
exactly one of the two counters, and an id that the reference mesh does not
contain is never entered into the matched map. -/
theorem update_match_fold_invariant (cub_verts_id_map : List (Int × Int)) :
    ∀ (exo_ids : List Int) (st : NodeMatchStats),
      (exo_ids.foldl (update_match_step cub_verts_id_map) st).found +
        (exo_ids.foldl (update_match_step cub_verts_id_map) st).lost =
          st.found + st.lost + exo_ids.length ∧
      ∀ id, cub_verts_id_map.lookup id = none →
        st.matched_cub_vert_id_map.lookup id = none →
        ((exo_ids.foldl (update_match_step cub_verts_id_map) st).matched_cub_vert_id_map).lookup
          id = none := by
  intro exo_ids
  induction exo_ids with
  | nil => intro st; exact ⟨by simp, fun id _ h => by simpa using h⟩
  | cons x rest ih =>
    intro st
    rw [List.foldl_cons]
    cases hx : cub_verts_id_map.lookup x with
    | some cub_vert =>
      have hstep : update_match_step cub_verts_id_map st x =
          { st with
            found := st.found + 1
            matched_cub_vert_id_map :=
              map_insert st.matched_cub_vert_id_map x cub_vert } := by
        unfold update_match_step
        rw [hx]
      rw [hstep]
      have H := ih { st with
        found := st.found + 1
        matched_cub_vert_id_map := map_insert st.matched_cub_vert_id_map x cub_vert }
      refine ⟨by rw [H.1]; simp [List.length_cons]; omega, fun id hid hm => ?_⟩
      refine H.2 id hid ?_
      have hne : id ≠ x := by
        intro h
        rw [h, hx] at hid
        exact Option.noConfusion hid
      exact lookup_map_insert_none st.matched_cub_vert_id_map x cub_vert id hm hne
    | none =>
      have hstep : update_match_step cub_verts_id_map st x =
          { st with lost := st.lost + 1 } := by
        unfold update_match_step
        rw [hx]
      rw [hstep]
      have H := ih { st with lost := st.lost + 1 }
      exact ⟨by rw [H.1]; simp [List.length_cons]; omega,
        fun id hid hm => H.2 id hid hm⟩

/-- C10: in the node-matching pass of `update` (by-id strategy, the
compile-time default), every exodus node is counted exactly once as matched
or lost, so `found + lost = numNodes`; an exodus id absent from the
reference mesh never enters the matched map; and a non-zero lost count does
not fail the update — the `return MB_FAILURE` is commented out, so control
proceeds to dead-element removal with the unmatched nodes absent from the
matched-node map. -/
theorem C10_update_node_matching (exo_ids : List Int)
    (cub_verts_id_map : List (Int × Int)) :
    (update_match_nodes_by_id exo_ids cub_verts_id_map).found +
      (update_match_nodes_by_id exo_ids cub_verts_id_map).lost = exo_ids.length ∧
    (∀ id, cub_verts_id_map.lookup id = none →
      ((update_match_nodes_by_id exo_ids cub_verts_id_map).matched_cub_vert_id_map).lookup
        id = none) ∧
    update_after_matching (update_match_nodes_by_id exo_ids cub_verts_id_map).lost =
      .proceedToDeadElementRemoval := by
  have H := update_match_fold_invariant cub_verts_id_map exo_ids ⟨0, 0, []⟩
  unfold update_match_nodes_by_id
  refine ⟨by rw [H.1]; simp, fun id hid => H.2 id hid rfl, ?_⟩
  unfold update_after_matching
  split <;> rfl

/-- C10 (witness): with exodus ids `[7, 8, 7]` and a reference mesh
containing only id `7`, two nodes are matched, one is lost, their counts sum
to the node count, the unmatched id `8` is absent from the matched map, and
the update still proceeds. -/
theorem C10_update_node_matching_witness :
    (update_match_nodes_by_id [7, 8, 7] [(7, 100)]).found +
      (update_match_nodes_by_id [7, 8, 7] [(7, 100)]).lost = 3 ∧
    ((update_match_nodes_by_id [7, 8, 7] [(7, 100)]).matched_cub_vert_id_map).lookup
      8 = none ∧
    update_after_matching (update_match_nodes_by_id [7, 8, 7] [(7, 100)]).lost =
      .proceedToDeadElementRemoval :=
  ⟨(C10_update_node_matching [7, 8, 7] [(7, 100)]).1,
   (C10_update_node_matching [7, 8, 7] [(7, 100)]).2.1 8 (by decide),
   (C10_update_node_matching [7, 8, 7] [(7, 100)]).2.2⟩

/-- The element families named by the claims for side-cardinality
bookkeeping. -/
inductive SideFamily where
  | hexF | tetF | quadF | triF | shellF
deriving Repr, DecidableEq

/-- Claim-side family membership, listed constructor by constructor from the
claim's wording (hex, tet, quad, tri, shell) rather than through the
source's enum-range comparisons. -/
def sideFamily : ExoIIElementType → Option SideFamily
  | .HEX => some .hexF | .HEX8 => some .hexF | .HEX9 => some .hexF
  | .HEX20 => some .hexF | .HEX27 => some .hexF
  | .TETRA => some .tetF | .TETRA4 => some .tetF | .TETRA8 => some .tetF
  | .TETRA10 => some .tetF | .TETRA14 => some .tetF
  | .QUAD => some .quadF | .QUAD4 => some .quadF | .QUAD5 => some .quadF
  | .QUAD8 => some .quadF | .QUAD9 => some .quadF
  | .TRI => some .triF | .TRI3 => some .triF | .TRI6 => some .triF
  | .TRI7 => some .triF
  | .SHELL => some .shellF | .SHELL4 => some .shellF | .SHELL8 => some .shellF
  | .SHELL9 => some .shellF
  | _ => none

/-- The claim's type-dependent side cardinality: hex 4, tet 3, quad 2,
tri 3, shell side 1 or 2 gets 4 and any later side 2. -/
def claimSideCard (f : SideFamily) (side_id : Int) : Int :=
  match f with
  | .hexF => 4
  | .tetF => 3
  | .quadF => 2
  | .triF => 3
  | .shellF => if side_id = 1 ∨ side_id = 2 then 4 else 2

/-- Blocks whose exodus-id range does not contain the id are walked past
without touching `df_index`. -/
theorem find_side_skip_pre (exodus_id side_id : Int) :
    ∀ (pre tailBlocks : List ReadBlockData) (df : Int),
      (∀ b' ∈ pre, ¬ (b'.startExoId ≤ exodus_id ∧
        exodus_id < b'.startExoId + b'.numElements)) →
      find_side_element_type (pre ++ tailBlocks) exodus_id side_id df =
        find_side_element_type tailBlocks exodus_id side_id df := by
  intro pre
  induction pre with
  | nil => intro t df _; rfl
  | cons p pre' ih =>
    intro t df h
    simp only [List.cons_append, find_side_element_type]
    rw [if_neg (h p (List.mem_cons_self p pre'))]
    exact ih t df fun b' hb => h b' (List.mem_cons_of_mem p hb)

/-- `find_side_element_type` at an owning block that is not being read in:
fail and advance `df_index` by the family's side cardinality. -/
theorem find_side_unloaded_head (b : ReadBlockData) (post : List ReadBlockData)
    (exodus_id side_id df : Int) (fam : SideFamily)
    (hin : b.startExoId ≤ exodus_id ∧ exodus_id < b.startExoId + b.numElements)
    (hnr : b.reading_in = false)
    (hfam : sideFamily b.elemType = some fam) :
    find_side_element_type (b :: post) exodus_id side_id df =
      (df + claimSideCard fam side_id, none) := by
  obtain ⟨bid, bstart, bnum, bmb, brin, btype⟩ := b
  simp only at hin hnr hfam
  subst hnr
  simp only [find_side_element_type]
  rw [if_pos hin, if_pos (by simp)]
  cases btype <;> simp only [sideFamily] at hfam <;> cases hfam <;> rfl

/-- C7: for an `(element-id, local-side)` pair whose owning block is not
selected for reading, `find_side_element_type` advances the
distribution-factor cursor by the type-dependent side cardinality (hex 4,
tet 3, quad 2, tri 3, shell side 1 or 2 gets 4, later shell sides 2) and
fails, and `create_ss_elements` treats that failure as a skip: the side
yields no entity and no error, only the advanced cursor. -/
theorem C7_unloaded_block_advances_df (env : MeshEnv)
    (pre post : List ReadBlockData) (b : ReadBlockData)
    (numDim exodus_id side_id : Int) (fam : SideFamily)
    (ndf : Nat) (temp : List Int)
    (hin : b.startExoId ≤ exodus_id ∧ exodus_id < b.startExoId + b.numElements)
    (hpre : ∀ b' ∈ pre, ¬ (b'.startExoId ≤ exodus_id ∧
      exodus_id < b'.startExoId + b'.numElements))
    (hnr : b.reading_in = false)
    (hfam : sideFamily b.elemType = some fam) :
    (∀ df, find_side_element_type (pre ++ b :: post) exodus_id side_id df =
      (df + claimSideCard fam side_id, none)) ∧
    create_ss_elements env (pre ++ b :: post) numDim [exodus_id] [side_id]
        ndf temp = some ⟨[], [], [], claimSideCard fam side_id⟩ := by
  have hfind : ∀ df, find_side_element_type (pre ++ b :: post) exodus_id side_id df =
      (df + claimSideCard fam side_id, none) := fun df =>
    (find_side_skip_pre exodus_id side_id pre (b :: post) df hpre).trans
      (find_side_unloaded_head b post exodus_id side_id df fam hin hnr hfam)
  refine ⟨hfind, ?_⟩
  show create_ss_elements_go env (pre ++ b :: post) numDim ndf temp
      [(exodus_id, side_id)] ⟨[], [], [], 0⟩ = _
  simp only [create_ss_elements_go]
  rw [hfind]
  simp [create_ss_elements_go]

/-- A trivial mesh-database environment, used for concrete evaluations. -/
def unitEnv : MeshEnv :=
  ⟨fun _ => none, fun _ _ => [], fun _ _ _ _ => none, fun _ => 0⟩

/-- C7 (witness): a single unselected `HEX8` block holding elements 1-4;
looking up element 2, side 3 at cursor 10 advances the cursor to 14 and the
side-set walk of that one pair emits nothing and succeeds. -/
theorem C7_unloaded_block_advances_df_witness :
    find_side_element_type [⟨5, 1, 4, 0, false, .HEX8⟩] 2 3 10 = (14, none) ∧
    create_ss_elements unitEnv [⟨5, 1, 4, 0, false, .HEX8⟩] 3 [2] [3] 0 [] =
      some ⟨[], [], [], 4⟩ := by
  have H := C7_unloaded_block_advances_df unitEnv [] []
    ⟨5, 1, 4, 0, false, .HEX8⟩ 3 2 3 .hexF 0 []
    (by decide) (by simp) rfl rfl
  simp only [List.nil_append] at H
  exact ⟨by rw [H.1 10]; decide, by rw [H.2]; decide⟩

/-- C4 (counterexample): a side set with a non-empty `reverse_entities` list
committed into a pre-existing meshset of the same neumann id (here handle 7
tagged 5): no reverse-sense child is created at all — the reverse entities
are silently dropped — although the claim requires one. -/
theorem C4_counterexample_merge_drops_reverse :
    (read_sidesets_commit [(7, some 5)] 100 101 5 [] [9] 0 []
        fun _ => none).map SideSetCommit.reverse_child = some none ∧
    ([9] : List Int) ≠ [] := by decide

/-- C4 (amended): when no meshset with this side set's neumann id
pre-exists, committing a side set whose `reverse_entities` list is non-empty
creates exactly one child meshset tagged `SENSE = -1`, adds all reverse
entities to it and adds that child to the side-set meshset (merging into a
pre-existing set instead discards the reverse entities); in particular a
`SHELL` element listed with local sides 1 and 2 appears once directly in
the side set and once in the single reverse-sense child. -/
theorem C4_reverse_sense_child (child_meshsets : List (Int × Option Int))
    (fresh_ss fresh_rev sideset_id : Int)
    (entities_to_add reverse_entities : List Int) (ndf : Nat) (temp : List Int)
    (dft : Int → Option (List Int))
    (hnone : child_meshsets.find? (fun p => p.2 == some sideset_id) = none)
    (hrev : reverse_entities ≠ []) :
    (read_sidesets_commit child_meshsets fresh_ss fresh_rev sideset_id
        entities_to_add reverse_entities ndf temp dft =
      some { ss_handle := fresh_ss
             created_new := true
             reverse_child := some ⟨fresh_rev, reverse_entities, -1⟩
             ss_members := fresh_rev :: entities_to_add
             dist_factors :=
               if ndf ≠ 0 then
                 some (ss_merge_dist_factors temp ((dft fresh_ss).getD []))
               else none }) ∧
    create_ss_elements unitEnv [⟨100, 1, 1, 50, true, .SHELL4⟩] 3 [1, 1] [1, 2]
        0 [] = some ⟨[50], [50], [], 0⟩ ∧
    read_sidesets_commit [] 200 201 7 [50] [50] 0 [] (fun _ => none) =
      some ⟨200, true, some ⟨201, [50], -1⟩, [201, 50], none⟩ := by
  refine ⟨?_, by decide, by decide⟩
  unfold read_sidesets_commit
  rw [if_neg (by rintro ⟨-, h⟩; exact hrev h), hnone]
  simp [hrev]

/-- C4 (witness): the amended theorem applied to a concrete commit — one
unrelated candidate meshset (handle 33 tagged 9), side set id 7, entities
`[50]` and reverse entities `[50]`. -/
theorem C4_reverse_sense_child_witness :
    read_sidesets_commit [(33, some 9)] 200 201 7 [50] [50] 0 []
        (fun _ => none) =
      some ⟨200, true, some ⟨201, [50], -1⟩, [201, 50], none⟩ := by
  rw [(C4_reverse_sense_child [(33, some 9)] 200 201 7 [50] [50] 0 []
    (fun _ => none) (by decide) (by decide)).1]
  decide

/-- Claim-side matching rule of C8, following the claim's words: a candidate
is reusable iff it has the same vertex count, contains the query's first
vertex, and, after rotating the candidate's connectivity so that the first
occurrence of that vertex leads, either the two sequences are equal or the
query equals the rotated candidate traversed in reverse (first vertex
fixed, the remaining vertices in reverse order). -/
def claimed_side_match (getConn : Int → Option (List Int))
    (connectivity : List Int) (h : Int) : Bool :=
  match getConn h with
  | none => false
  | some match_conn =>
    match_conn.length == connectivity.length &&
    match_conn.contains (connectivity.getD 0 0) &&
    (let rotated :=
      match_conn.rotate (match_conn.findIdx (· == connectivity.getD 0 0))
     rotated == connectivity ||
       connectivity == rotated.headD 0 :: (rotated.drop 1).reverse)

/-- `std::find` over a list missing the sought element reaches `end()`. -/
theorem findIdx_beq_of_not_mem (l : List Int) (x : Int) (h : x ∉ l) :
    l.findIdx (· == x) = l.length := by
  induction l with
  | nil => rfl
  | cons a rest ih =>
    have hax : (a == x) = false :=
      beq_eq_false_iff_ne.mpr fun hh => h (hh ▸ List.mem_cons_self a rest)
    have hx : x ∉ rest := fun hh => h (List.mem_cons_of_mem a hh)
    simp [List.findIdx_cons, hax, ih hx]

/-- Split a list at the first occurrence of a member. -/
theorem first_occ_split (x : Int) (l : List Int) (h : x ∈ l) :
    ∃ a b, l = a ++ x :: b ∧ x ∉ a := by
  induction l with
  | nil => cases h
  | cons y rest ih =>
    by_cases hxy : x = y
    · exact ⟨[], rest, by rw [hxy]; rfl, by simp⟩
    · rcases ih ((List.mem_cons.mp h).resolve_left hxy) with ⟨a, b, rfl, hxa⟩
      exact ⟨y :: a, b, rfl, by simp [hxa, fun hh : x = y => hxy hh]⟩

/-- `std::find` lands on the first occurrence. -/
theorem findIdx_first_occ (x : Int) (a b : List Int) (hxa : x ∉ a) :
    (a ++ x :: b).findIdx (· == x) = a.length := by
  induction a with
  | nil => simp [List.findIdx_cons]
  | cons y a' ih =>
    have hyx : (y == x) = false :=
      beq_eq_false_iff_ne.mpr fun hh => hxa (hh ▸ List.mem_cons_self y a')
    have hx : x ∉ a' := fun hh => hxa (List.mem_cons_of_mem y hh)
    simp [List.findIdx_cons, hyx, ih hx]

/-- `std::rotate` bringing the first occurrence to the front cyclically
shifts the prefix behind the suffix. -/
theorem rotate_first_occ (x : Int) (a b : List Int) :
    (a ++ x :: b).rotate a.length = x :: (b ++ a) := by
  rw [List.rotate_eq_drop_append_take (by simp)]
  rw [List.drop_left, List.take_left]
  rfl

/-- Positionwise `getD`-equality of equally long lists is equality. -/
theorem list_eq_of_getD_eq (u : List Int) :
    ∀ v : List Int, u.length = v.length →
      (∀ j, j < u.length → u.getD j 0 = v.getD j 0) → u = v := by
  induction u with
  | nil =>
    intro v hl _
    cases v with
    | nil => rfl
    | cons y v' => simp at hl
  | cons x u' ih =>
    intro v hl h
    cases v with
    | nil => simp at hl
    | cons y v' =>
      have h0 : x = y := by simpa using h 0 (by simp)
      have ht : u' = v' := by
        refine ih v' (by simpa using hl) fun j hj => ?_
        simpa [List.getD_cons_succ] using h (j + 1) (by simpa using Nat.succ_lt_succ hj)
      rw [h0, ht]

/-- `getD` through a reversed list. -/
theorem getD_reverse_eq (l : List Int) (j : Nat) (hj : j < l.length) :
    l.reverse.getD j 0 = l.getD (l.length - 1 - j) 0 := by
  rw [List.getD_eq_getElem _ _ (by simpa using hj),
      List.getD_eq_getElem _ _ (by omega)]
  simp

/-- The forward comparison loop succeeds exactly on equal sequences (heads
being already aligned). -/
theorem fwd_loop_match_iff (conn mcr : List Int) (hlen : mcr.length = conn.length)
    (hhead : mcr.getD 0 0 = conn.getD 0 0) :
    fwd_loop_match conn mcr = true ↔ mcr = conn := by
  unfold fwd_loop_match
  rw [List.all_eq_true]
  constructor
  · intro H
    refine list_eq_of_getD_eq mcr conn hlen fun j hj => ?_
    by_cases hj0 : j = 0
    · subst hj0; exact hhead
    · have hor := H j (List.mem_range.mpr (by omega))
      rw [Bool.or_eq_true] at hor
      rcases hor with h1 | h2
      · exact absurd (beq_iff_eq.mp h1) hj0
      · exact (beq_iff_eq.mp h2).symm
  · rintro rfl
    intro j _
    simp

/-- The backward comparison loop, positionwise. -/
theorem rev_loop_match_iff_forall (c0 : Int) (ct mt : List Int) :
    rev_loop_match (c0 :: ct) (c0 :: mt) = true ↔
      ∀ j, j < ct.length → ct.getD j 0 = mt.getD (ct.length - 1 - j) 0 := by
  unfold rev_loop_match
  rw [List.all_eq_true]
  constructor
  · intro H j hj
    have hmem : j + 1 ∈ List.range (c0 :: ct).length :=
      List.mem_range.mpr (by simp only [List.length_cons]; omega)
    have hor := H (j + 1) hmem
    rw [Bool.or_eq_true] at hor
    rcases hor with h1 | h2
    · exact absurd (beq_iff_eq.mp h1) (by omega)
    · have h2' := beq_iff_eq.mp h2
      rw [List.getD_cons_succ] at h2'
      have hidx : (c0 :: ct).length - (j + 1) = (ct.length - 1 - j) + 1 := by
        simp only [List.length_cons]; omega
      rw [hidx, List.getD_cons_succ] at h2'
      exact h2'
  · intro H j hjmem
    have hjlt := List.mem_range.mp hjmem
    cases j with
    | zero => simp
    | succ j' =>
      have hj' : j' < ct.length := by
        simp only [List.length_cons] at hjlt; omega
      rw [Bool.or_eq_true]
      right
      apply beq_iff_eq.mpr
      rw [List.getD_cons_succ]
      have hidx : (c0 :: ct).length - (j' + 1) = (ct.length - 1 - j') + 1 := by
        simp only [List.length_cons]; omega
      rw [hidx, List.getD_cons_succ]
      exact H j' hj'

/-- Positionwise reversal is reversal. -/
theorem forall_rev_iff_eq_reverse (ct mt : List Int)
    (hlen : mt.length = ct.length) :
    (∀ j, j < ct.length → ct.getD j 0 = mt.getD (ct.length - 1 - j) 0) ↔
      ct = mt.reverse := by
  constructor
  · intro H
    refine list_eq_of_getD_eq ct mt.reverse (by simp [hlen]) fun j hj => ?_
    rw [getD_reverse_eq mt j (by omega)]
    rw [show mt.length - 1 - j = ct.length - 1 - j from by omega]
    exact H j hj
  · intro hEq j hj
    subst hEq
    rw [getD_reverse_eq mt j (by simpa using hj)]
    congr 1
    simp

/-- The per-candidate test of the source (`side_match_impl`) coincides with
the claim's formulation of the matching rule. -/
theorem side_match_impl_eq_claimed (getConn : Int → Option (List Int))
    (conn : List Int) (h : Int) :
    side_match_impl getConn conn h = claimed_side_match getConn conn h := by
  unfold side_match_impl claimed_side_match
  cases hgc : getConn h with
  | none => rfl
  | some mc =>
    dsimp only
    by_cases hlen : mc.length = conn.length
    case neg =>
      rw [if_pos hlen]
      have hb : (mc.length == conn.length) = false := beq_eq_false_iff_ne.mpr hlen
      simp [hb]
    case pos =>
      rw [if_neg (not_not_intro hlen)]
      cases conn with
      | nil =>
        have hmc : mc = [] := List.eq_nil_of_length_eq_zero (by simpa using hlen)
        subst hmc
        rfl
      | cons c0 ct =>
        simp only [List.getD_cons_zero]
        by_cases hmem : c0 ∈ mc
        case neg =>
          rw [if_pos (findIdx_beq_of_not_mem mc c0 hmem)]
          have hcont : mc.contains c0 = false := by
            simpa [List.elem_iff] using hmem
          simp [hcont, hmem]
        case pos =>
          obtain ⟨a, b, hmc, hxa⟩ := first_occ_split c0 mc hmem
          subst hmc
          rw [findIdx_first_occ c0 a b hxa]
          rw [if_neg (by simp only [List.length_append, List.length_cons]; omega)]
          rw [rotate_first_occ]
          have hlen2 : (b ++ a).length = ct.length := by
            simp only [List.length_append, List.length_cons] at hlen ⊢
            omega
          simp only [List.headD_cons, List.drop_succ_cons, List.drop_zero]
          have hc1 : ((a ++ c0 :: b).length == (c0 :: ct).length) = true :=
            beq_iff_eq.mpr hlen
          have hc2 : (a ++ c0 :: b).contains c0 = true := by
            simp [List.elem_iff]
          rw [hc1, hc2]
          simp only [Bool.true_and]
          have hfwd := fwd_loop_match_iff (c0 :: ct) (c0 :: (b ++ a))
            (by simp only [List.length_cons, hlen2]) (by simp)
          have hrev := (rev_loop_match_iff_forall c0 ct (b ++ a)).trans
            (forall_rev_iff_eq_reverse ct (b ++ a) hlen2)
          rw [Bool.eq_iff_iff, Bool.or_eq_true, Bool.or_eq_true, hfwd, hrev]
          constructor
          · rintro (h | h)
            · exact Or.inl (beq_iff_eq.mpr h)
            · exact Or.inr (beq_iff_eq.mpr (by rw [h]))
          · rintro (h | h)
            · exact Or.inl (beq_iff_eq.mp h)
            · have h2 : ct = (b ++ a).reverse := by
                simpa using beq_iff_eq.mp h
              exact Or.inr h2

/-- The candidate scan of `create_sideset_element` returns precisely the
first candidate satisfying the claim's matching rule. -/
theorem create_sideset_element_core_eq_find (getConn : Int → Option (List Int))
    (conn : List Int) :
    ∀ adj : List Int,
      create_sideset_element_core getConn conn adj =
        adj.find? (claimed_side_match getConn conn) := by
  intro adj
  induction adj with
  | nil => rfl
  | cons x rest ih =>
    simp only [create_sideset_element_core]
    rw [side_match_impl_eq_claimed]
    cases hc : claimed_side_match getConn conn x with
    | true => rw [if_pos rfl, List.find?_cons_of_pos _ hc]
    | false => rw [if_neg (by simp), List.find?_cons_of_neg _ (by simp [hc]), ih]

/-- C8: `create_sideset_element` reuses an existing adjacent entity instead
of creating a new one exactly when some adjacent candidate has the same
vertex count and, after rotating the candidate's connectivity so its first
vertex aligns with the query's first vertex, either the two sequences are
equal or the query equals the rotated candidate traversed in reverse; the
first such match is returned, and otherwise a new entity with the query
connectivity is created. -/
theorem C8_create_sideset_element_dedup (env : MeshEnv) (type : EntityType)
    (connectivity : List Int) :
    match (env.adjacent (connectivity.getD 0 0) (CN_Dimension type)).find?
        (claimed_side_match env.getConn connectivity) with
    | some hh => create_sideset_element env type connectivity = (hh, false)
    | none =>
      create_sideset_element env type connectivity =
        (env.freshHandle connectivity, true) := by
  have hcore := create_sideset_element_core_eq_find env.getConn connectivity
    (env.adjacent (connectivity.getD 0 0) (CN_Dimension type))
  cases hfind : (env.adjacent (connectivity.getD 0 0) (CN_Dimension type)).find?
      (claimed_side_match env.getConn connectivity) with
  | some hh =>
    unfold create_sideset_element
    dsimp only
    rw [hcore, hfind]
  | none =>
    unfold create_sideset_element
    dsimp only
    rw [hcore, hfind]
